import Mathlib

/-!
Shallow embedding of `src/BasicObjectNotation.py` (BON parser and document
model).  The `TextQueue` is modelled as a `List Char` whose head is the front
of the queue (the next character `pop` removes): in the source the deque is
loaded with `push = appendleft`, `pop` removes from the right, and
`peek i = self[len-(1+i)]`, so the logical front-to-back order of characters
is exactly the original text order.  A buffer built by pushing popped
characters reads back (via `str`) in push order, so buffers are also plain
lists with append.  Machine integers do not occur; Python's unbounded `int`
is `Int`/`Nat`.  Python `float` values are modelled exactly as a mantissa and
a power-of-ten exponent (every literal the grammar admits is a finite decimal
times a power of ten); the numeric value is recovered by `floatVal` as a
rational.  Fallible code returns `Except PyErr`.
-/

/-- The `BONType` enumeration (class BONType, lines 4-13). -/
inductive BONType where
  | string
  | number
  | bon_object
  | bon_list
  | bon_node
  | invalid
deriving DecidableEq, Repr

/-- Errors raised by the source.  Each constructor corresponds to one `raise`
site (or to a Python runtime error the source provokes):
`unterminatedString` = "Expected token ' \" ' not found." (line 243),
`malformedList` = "Malformed list provided" (line 272),
`missingNodeTerminator` = "Expected token ';' not found." (line 297),
`missingOpeningBrace` / `missingClosingBrace` = lines 331/333,
`expectedNode` = the bare-string `raise 'Invalid type, expected BONNode.'`
(lines 318/325; in Python 3 raising a string is itself a TypeError, but
either way the call terminates with an error),
`invalidFloatToken` = the two "Float token error" raises (lines 211/214),
`valueError` = a failing `int()`/`float()` conversion,
`unrecognizedValue` = the `KeyError` from `type_map[BONType.invalid]`
(line 184), `keyError` = `KeyError` in the object accessors,
`typeError` = slicing `None` in `BONObject.__init__`,
`outOfFuel` = artefact of the fuelled embedding, never produced on the
concrete inputs the theorems evaluate. -/
inductive PyErr where
  | unterminatedString
  | malformedList
  | missingNodeTerminator
  | missingOpeningBrace
  | missingClosingBrace
  | expectedNode
  | invalidFloatToken
  | valueError
  | unrecognizedValue
  | keyError
  | typeError
  | outOfFuel
deriving DecidableEq, Repr

/-- Characters written via their code points to keep the development free of
escape-laden literals: backslash, single quote, the two braces, tab and
newline. -/
def backslashChar : Char := Char.ofNat 92

/-- Single-quote character `'`. -/
def squoteChar : Char := Char.ofNat 39

/-- Opening brace character. -/
def lbraceChar : Char := Char.ofNat 123

/-- Closing brace character. -/
def rbraceChar : Char := Char.ofNat 125

/-- Tab character (one of `BONParser.invalid_chars`). -/
def tabChar : Char := Char.ofNat 9

/-- Newline character (the other of `BONParser.invalid_chars`). -/
def nlChar : Char := Char.ofNat 10

/-- Python values the parser produces.  `pynone` is Python's `None` (the
implicit return of `parse_list` when the loop falls through, and the initial
`key`/`value` of `parse_node`).  `vfloat m e` is the float with exact value
`m * 10 ^ e`.  `vnode k v` is a `BONNode`, `vobj ns` a `BONObject`'s node
list. -/
inductive PyVal where
  | pynone
  | vint (n : Int)
  | vfloat (mantissa exp10 : Int)
  | vstr (s : String)
  | vlist (elems : List PyVal)
  | vnode (key value : PyVal)
  | vobj (nodes : List PyVal)
deriving Repr

/-- The exact rational value of the float `vfloat m e`. -/
def floatVal (m e : Int) : Rat := (m : Rat) * (10 : Rat) ^ e

/-- `x in '0123456789'` (the `integer_digits` constant, line 133) for a single
character `x`. -/
def isIntDigit (c : Char) : Bool :=
  c == '0' || c == '1' || c == '2' || c == '3' || c == '4' ||
  c == '5' || c == '6' || c == '7' || c == '8' || c == '9'

/-- `x in '0123456789.fe-'` (the `float_digits` constant, line 134). -/
def isFloatDigit (c : Char) : Bool :=
  isIntDigit c || c == '.' || c == 'f' || c == 'e' || c == '-'

/-- `BONParser.opening_map` (lines 124-130) as a partial lookup. -/
def openingType (c : Char) : Option BONType :=
  if c == lbraceChar then some BONType.bon_object
  else if c == '[' then some BONType.bon_list
  else if c == '"' then some BONType.string
  else if c == squoteChar then some BONType.string
  else if c == ':' then some BONType.bon_node
  else Option.none

/-- One step of `determine_type`'s loop (lines 149-167) along the peek
indices produced by `TextQueue.__iter__` (`yield self.peek(x) for x in
range(0, len(self))`, lines 28-30).  The queue `q` is only read through
`q.get? i` (= `peek i`); the returned pair carries the queue out of the call
so that the frame property is a statement, not a typing accident.  The
`Option.none` branch of the peek is unreachable for indices drawn from
`range (len q)`. -/
def dtGo (q : List Char) : List Nat → Bool → Bool → BONType × List Char
  | [], _, _ => (BONType.invalid, q)
  | i :: is, isEsc, alphaFound =>
    match q.get? i with
    | Option.none => (BONType.invalid, q)
    | some c =>
      if isEsc then
        dtGo q is (c == backslashChar && !isEsc) alphaFound
      else
        match openingType c with
        | some t => (t, q)
        | Option.none =>
          if c.isAlpha && !alphaFound then
            dtGo q is (c == backslashChar && !isEsc) true
          else if c.isDigit && !alphaFound then
            (BONType.number, q)
          else
            dtGo q is (c == backslashChar && !isEsc) alphaFound

/-- `BONParser.determine_type` (lines 142-167), returning the classified type
together with the queue as it stands after the call. -/
def determineTypeM (q : List Char) : BONType × List Char :=
  dtGo q (List.range q.length) false false

/-- The classified type of the next value (the value `determine_type`
returns). -/
def determineType (q : List Char) : BONType := (determineTypeM q).1

theorem dtGo_snd (q : List Char) :
    ∀ (idxs : List Nat) (e a : Bool), (dtGo q idxs e a).2 = q := by
  intro idxs
  induction idxs with
  | nil => intro e a; rfl
  | cons i is ih =>
    intro e a
    rw [dtGo]
    cases hg : q.get? i with
    | none => rfl
    | some c =>
      cases e with
      | true => simpa using ih _ a
      | false =>
        cases ho : openingType c with
        | some t => simp [ho]
        | none =>
          by_cases h1 : (c.isAlpha && !a) = true
          · simp [ho, h1, ih]
          · by_cases h2 : (c.isDigit && !a) = true
            · simp [ho, h1, h2]
            · simp [ho, h1, h2, ih]

/-- The loop of `BONParser.parse_string` (lines 231-241), translated
branch-for-branch from its `elif` chain; arguments are the remaining queue,
the accumulated buffer, `start_found` and `is_escaped`.  Falling off the loop
raises the unterminated-string error (line 243). -/
def parseStringLoop : List Char → List Char → Bool → Bool →
    Except PyErr (List Char × List Char)
  | [], _, _, _ => Except.error PyErr.unterminatedString
  | c :: rest, buf, startFound, isEsc =>
    if startFound && !isEsc && (c == '"' || c == squoteChar) then
      Except.ok (buf, rest)
    else if startFound && !(c == tabChar || c == nlChar) then
      parseStringLoop rest
        (if !(c == backslashChar) || isEsc then buf ++ [c] else buf)
        startFound (c == backslashChar && !isEsc)
    else if c == '"' || c == squoteChar then
      parseStringLoop rest buf true (c == backslashChar && !isEsc)
    else
      parseStringLoop rest buf startFound (c == backslashChar && !isEsc)

/-- `BONParser.parse_string` (lines 218-243); returns the string's characters
and the remaining queue. -/
def parseString (q : List Char) : Except PyErr (List Char × List Char) :=
  parseStringLoop q [] false false

/-- The consuming loop of `BONParser.parse_number` (lines 196-197): pop while
the front character is in `float_digits` or is a space; returns the
accumulated buffer and the remaining queue. -/
def numberLoop : List Char → List Char × List Char
  | [] => ([], [])
  | c :: rest =>
    if isFloatDigit c || c == ' ' then
      ((c :: (numberLoop rest).1), (numberLoop rest).2)
    else
      ([], c :: rest)

/-- Strip every leading and trailing occurrence of `c` (Python
`str.strip(c)`; with `c = ' '` also the whitespace stripping that `int()` and
`float()` perform on their argument, since space is the only whitespace that
survives sanitization). -/
def stripChar (c : Char) (s : List Char) : List Char :=
  ((s.dropWhile (· == c)).reverse.dropWhile (· == c)).reverse

/-- `stripChar` specialised to spaces. -/
def stripSpaces (s : List Char) : List Char := stripChar ' ' s

/-- Base-10 value of a digit string. -/
def digitsToNat (ds : List Char) : Nat :=
  ds.foldl (fun a c => 10 * a + (c.toNat - 48)) 0

/-- The digit-run check shared by `int()` and `float()`: nonempty and all
decimal digits. -/
def pyIntDigits (ds : List Char) : Option Nat :=
  if !ds.isEmpty && ds.all isIntDigit then some (digitsToNat ds)
  else Option.none

/-- Python `int(s)` restricted to the strings this program can pass it
(digits, spaces and sign characters): strip surrounding whitespace, then an
optional sign followed by a nonempty digit run.  A space between digits (or
an empty core) is a `ValueError`, which is the behaviour the claims probe. -/
def pyInt (s : List Char) : Option Int :=
  match stripSpaces s with
  | [] => Option.none
  | c :: t =>
    if c == '-' then (pyIntDigits t).map (fun n => -(n : Int))
    else if c == '+' then (pyIntDigits t).map (fun n => (n : Int))
    else (pyIntDigits (c :: t)).map (fun n => (n : Int))

/-- Exponent tail of a float literal: optional sign then a nonempty digit
run; `(m, e)` is the mantissa/power-of-ten pair accumulated so far. -/
def pyFloatExpTail (m e : Int) (r : List Char) : Option (Int × Int) :=
  match r with
  | '-' :: ds => (pyIntDigits ds).map (fun n => (m, e - (n : Int)))
  | '+' :: ds => (pyIntDigits ds).map (fun n => (m, e + (n : Int)))
  | ds => (pyIntDigits ds).map (fun n => (m, e + (n : Int)))

/-- After the mantissa: end of string, or `e`/`E` introducing an exponent;
anything else is a `ValueError`. -/
def pyFloatExp (m e : Int) : List Char → Option (Int × Int)
  | [] => some (m, e)
  | c :: r =>
    if c == 'e' || c == 'E' then pyFloatExpTail m e r
    else Option.none

/-- Unsigned mantissa of a float literal: `digits`, `digits.digits`,
`digits.` or `.digits` (at least one digit overall), then the optional
exponent. -/
def pyFloatCore (t : List Char) : Option (Int × Int) :=
  match t.span isIntDigit with
  | (ip, r1) =>
    match r1 with
    | '.' :: r2 =>
      match r2.span isIntDigit with
      | (fp, r3) =>
        if ip.isEmpty && fp.isEmpty then Option.none
        else pyFloatExp (Int.ofNat (digitsToNat (ip ++ fp))) (-(fp.length : Int)) r3
    | _ =>
      if ip.isEmpty then Option.none
      else pyFloatExp (Int.ofNat (digitsToNat ip)) 0 r1

/-- Python `float(s)` restricted to the decimal strings this program can pass
it (digits, `.`, `e`, signs, spaces — never `inf`/`nan`): the exact value is
returned as mantissa and power-of-ten exponent.  `Option.none` is a
`ValueError`. -/
def pyFloatPair (s : List Char) : Option (Int × Int) :=
  match stripSpaces s with
  | '-' :: r => (pyFloatCore r).map (fun p => (-p.1, p.2))
  | '+' :: r => pyFloatCore r
  | t => pyFloatCore t

/-- Index of the last occurrence of `c` (Python `str.rindex`), `Option.none`
when absent. -/
def lastIdx (c : Char) : List Char → Option Nat
  | [] => Option.none
  | a :: rest =>
    match lastIdx c rest with
    | some i => some (i + 1)
    | Option.none => if a == c then some 0 else Option.none

/-- The final conversion of `parse_float` (line 216):
`float(data.strip('f'))`. -/
def floatConv (buf : List Char) : Except PyErr PyVal :=
  match pyFloatPair (stripChar 'f' buf) with
  | some p => Except.ok (PyVal.vfloat p.1 p.2)
  | Option.none => Except.error PyErr.valueError

/-- `BONParser.parse_float` (lines 204-216): more than one `f` or an `f`
whose last occurrence is not the final character is the float-token error;
otherwise strip the `f`s and convert. -/
def parseFloatE (buf : List Char) : Except PyErr PyVal :=
  if 1 < buf.count 'f' then Except.error PyErr.invalidFloatToken
  else
    match lastIdx 'f' buf with
    | some i =>
      if i ≠ buf.length - 1 then Except.error PyErr.invalidFloatToken
      else floatConv buf
    | Option.none => floatConv buf

/-- Classification of the accumulated buffer in `parse_number` (lines
199-202): all digits-or-spaces means `int(str(buffer))`, otherwise the buffer
goes to `parse_float`. -/
def bufferToNumber (buf : List Char) : Except PyErr PyVal :=
  if buf.all (fun c => isIntDigit c || c == ' ') then
    match pyInt buf with
    | some n => Except.ok (PyVal.vint n)
    | Option.none => Except.error PyErr.valueError
  else parseFloatE buf

/-- `BONParser.parse_number` (lines 186-202): consume the buffer, classify
it, and pair the result with the remaining queue. -/
def parseNumber (q : List Char) : Except PyErr (PyVal × List Char) :=
  match bufferToNumber (numberLoop q).1 with
  | Except.ok v => Except.ok (v, (numberLoop q).2)
  | Except.error e => Except.error e

/-- The mutually recursive parse routines of `BONParser` share one queue and
call each other through `parse_value`; the embedding fuses them into a single
fuel-indexed function `run`, with one `PMode` constructor per routine:
`value` = `parse_value` (lines 169-184), `nodeLoop buf key val` = the loop of
`parse_node` (lines 287-295) with its buffer and its `key`/`value` locals,
`listLoop acc started` = the loop of `parse_list` (lines 260-272), and
`objLoop nodes started` = the loop of `parse_object` (lines 312-328). -/
inductive PMode where
  | value
  | nodeLoop (buf : List Char) (key val : PyVal)
  | listLoop (acc : List PyVal) (started : Bool)
  | objLoop (nodes : List PyVal) (started : Bool)

/-- `key == None` in `parse_node` (line 294): `key` is either the initial
`None` or a stripped string, and a Python string never equals `None`. -/
def isPyNone : PyVal → Bool
  | PyVal.pynone => true
  | _ => false

/-- One fuelled interpreter for the four mutually recursive routines.  The
queue-exhaustion outcomes (the `while` conditions failing) are matched before
the fuel so they hold for every fuel value: `parse_node` falls through to the
missing-`;` raise, `parse_list` falls through to Python's implicit
`return None`, and `parse_object` raises the missing-brace error that matches
`start_found`.  Every recursive call decreases the fuel; `outOfFuel` never
arises on the concrete inputs evaluated below. -/
def run : Nat → PMode → List Char → Except PyErr (PyVal × List Char)
  | _, PMode.nodeLoop _ _ _, [] => Except.error PyErr.missingNodeTerminator
  | _, PMode.listLoop _ _, [] => Except.ok (PyVal.pynone, [])
  | _, PMode.objLoop _ false, [] => Except.error PyErr.missingOpeningBrace
  | _, PMode.objLoop _ true, [] => Except.error PyErr.missingClosingBrace
  | 0, _, _ => Except.error PyErr.outOfFuel
  | f + 1, PMode.value, q =>
    -- parse_value: classify, then dispatch through type_map; a BONType.invalid
    -- classification is the KeyError on the type_map lookup.
    match determineType q with
    | BONType.number => parseNumber q
    | BONType.string =>
      match parseString q with
      | Except.ok p => Except.ok (PyVal.vstr (String.mk p.1), p.2)
      | Except.error e => Except.error e
    | BONType.bon_node => run f (PMode.nodeLoop [] PyVal.pynone PyVal.pynone) q
    | BONType.bon_list => run f (PMode.listLoop [] false) q
    | BONType.bon_object => run f (PMode.objLoop [] false) q
    | BONType.invalid => Except.error PyErr.unrecognizedValue
  | f + 1, PMode.nodeLoop buf key val, c :: rest =>
    -- parse_node loop: ':' fixes the key (stripped buffer) and recursively
    -- parses the value; ';' returns the node; other non-space characters are
    -- pushed onto the key buffer only while key is still None.
    if c == ':' then
      match run f PMode.value rest with
      | Except.ok p =>
        run f (PMode.nodeLoop buf (PyVal.vstr (String.mk (stripSpaces buf))) p.1) p.2
      | Except.error e => Except.error e
    else if c == ';' then
      Except.ok (PyVal.vnode key val, rest)
    else if !(c == ' ') && isPyNone key then
      run f (PMode.nodeLoop (buf ++ [c]) key val) rest
    else
      run f (PMode.nodeLoop buf key val) rest
  | f + 1, PMode.listLoop acc started, c :: rest =>
    -- parse_list loop: '[' (also the one that opens the list) and ',' trigger
    -- a recursive parse_value whose result is appended; ']' returns the list;
    -- a space is skipped; anything else while started is the malformed-list
    -- error.
    let started' := started || c == '['
    if started' then
      if c == ',' || c == '[' then
        match run f PMode.value rest with
        | Except.ok p => run f (PMode.listLoop (acc ++ [p.1]) started') p.2
        | Except.error e => Except.error e
      else if c == ']' then Except.ok (PyVal.vlist acc, rest)
      else if !(c == ' ') then Except.error PyErr.malformedList
      else run f (PMode.listLoop acc started') rest
    else run f (PMode.listLoop acc started') rest
  | f + 1, PMode.objLoop nodes started, c :: rest =>
    -- parse_object loop: the front character is peeked; on '{' it is popped,
    -- the remainder must classify as a node, and one node is parsed; on '}'
    -- it is popped and the object is returned (started or not, exactly as in
    -- the source); while started, any other non-space character must also
    -- classify as a node and one node is parsed from the un-popped queue;
    -- otherwise the character is popped and discarded.
    if c == lbraceChar then
      if !(determineType rest == BONType.bon_node) then
        Except.error PyErr.expectedNode
      else
        match run f PMode.value rest with
        | Except.ok p => run f (PMode.objLoop (nodes ++ [p.1]) true) p.2
        | Except.error e => Except.error e
    else if c == rbraceChar then
      Except.ok (PyVal.vobj nodes, rest)
    else if started && !(c == ' ') then
      if !(determineType (c :: rest) == BONType.bon_node) then
        Except.error PyErr.expectedNode
      else
        match run f PMode.value (c :: rest) with
        | Except.ok p => run f (PMode.objLoop (nodes ++ [p.1]) started) p.2
        | Except.error e => Except.error e
    else
      run f (PMode.objLoop nodes started) rest

/-- `BONParser.parse_value` entry point. -/
def parseValue (fuel : Nat) (q : List Char) : Except PyErr (PyVal × List Char) :=
  run fuel PMode.value q

/-- `BONParser.parse_node` entry point (buffer empty, key and value `None`). -/
def parseNode (fuel : Nat) (q : List Char) : Except PyErr (PyVal × List Char) :=
  run fuel (PMode.nodeLoop [] PyVal.pynone PyVal.pynone) q

/-- `BONParser.parse_list` entry point. -/
def parseList (fuel : Nat) (q : List Char) : Except PyErr (PyVal × List Char) :=
  run fuel (PMode.listLoop [] false) q

/-- `BONParser.parse_object` entry point. -/
def parseObject (fuel : Nat) (q : List Char) : Except PyErr (PyVal × List Char) :=
  run fuel (PMode.objLoop [] false) q

/-- `BONParser.__init__` (lines 136-139): remove every newline and tab from
the source text before loading the queue. -/
def sanitize (s : String) : List Char :=
  s.toList.filter (fun c => !(c == nlChar || c == tabChar))

/-- Construct a parser from a source string and invoke the top-level
`parse_value`. -/
def bonParse (fuel : Nat) (s : String) : Except PyErr (PyVal × List Char) :=
  parseValue fuel (sanitize s)

/-- Exact comparison of two float values `m1 * 10 ^ e1` and `m2 * 10 ^ e2`
by cross-multiplying with the power-of-ten difference. -/
def floatPairEq (m1 e1 m2 e2 : Int) : Bool :=
  if e2 ≤ e1 then m1 * (10 : Int) ^ (e1 - e2).toNat == m2
  else m1 == m2 * (10 : Int) ^ (e2 - e1).toNat

mutual

/-- Python `==` on the values this model builds: `None` equals only `None`,
numbers compare by numeric value across `int`/`float`, strings by content,
lists elementwise.  `BONNode` and `BONObject` define no `__eq__`, so two
distinct instances compare unequal (identity); the claims only ever compare
primitives, for which this is exact. -/
def pyEq : PyVal → PyVal → Bool
  | PyVal.pynone, PyVal.pynone => true
  | PyVal.vint a, PyVal.vint b => a == b
  | PyVal.vint a, PyVal.vfloat m e => floatPairEq a 0 m e
  | PyVal.vfloat m e, PyVal.vint b => floatPairEq m e b 0
  | PyVal.vfloat m1 e1, PyVal.vfloat m2 e2 => floatPairEq m1 e1 m2 e2
  | PyVal.vstr a, PyVal.vstr b => a == b
  | PyVal.vlist a, PyVal.vlist b => pyEqList a b
  | _, _ => false

/-- Elementwise Python `==` on lists. -/
def pyEqList : List PyVal → List PyVal → Bool
  | [], [] => true
  | a :: as, b :: bs => pyEq a b && pyEqList as bs
  | _, _ => false

end

/-- The `BONNode` class (lines 56-68): a key/value pair.  The parser's
`PyVal.vnode` mirrors the same data inside parsed values; this structure is
the receiver-side view used by `BONObject`'s methods, whose `self.nodes`
elements are `BONNode` instances. -/
structure BONNode where
  key : PyVal
  value : PyVal

/-- `BONNode.__contains__` (lines 67-68): `key == item or value == item`. -/
def nodeContains (n : BONNode) (item : PyVal) : Bool :=
  pyEq n.key item || pyEq n.value item

/-- `BONObject.__contains__` (lines 95-99): scan the nodes and return `True`
at the first node whose KEY equals the item; values are never consulted. -/
def objContains : List BONNode → PyVal → Bool
  | [], _ => false
  | n :: rest, item => if pyEq n.key item then true else objContains rest item

/-- The loop of `BONObject.__delitem__` (lines 110-112): `index` starts as
`None` and is overwritten with the position of every node whose key matches,
so it ends as the LAST matching position (or `None`). -/
def lastMatchIdxAux : List BONNode → PyVal → Nat → Option Nat → Option Nat
  | [], _, _, acc => acc
  | n :: rest, key, i, acc =>
    lastMatchIdxAux rest key (i + 1) (if pyEq n.key key then some i else acc)

/-- `BONObject.__delitem__` (lines 108-117).  After the scan the source tests
`if not index:` — in Python this is `True` both when `index` is `None` and
when `index == 0`, so a match found (only) at position 0 raises `KeyError`
exactly like no match at all; otherwise `del self.nodes[index]` removes the
last matching node. -/
def objDelitem (nodes : List BONNode) (key : PyVal) : Except PyErr (List BONNode) :=
  match lastMatchIdxAux nodes key 0 Option.none with
  | Option.none => Except.error PyErr.keyError
  | some 0 => Except.error PyErr.keyError
  | some (i + 1) => Except.ok (nodes.eraseIdx (i + 1))

/-- `BONObject.__init__` (lines 72-73): `self.nodes = nodes[:]`
unconditionally.  With the declared default `nodes = None` the slice is
`None[:]`, a `TypeError`; with an actual list it copies the list. -/
def objInit (nodes : Option (List BONNode)) : Except PyErr (List BONNode) :=
  match nodes with
  | Option.none => Except.error PyErr.typeError
  | some l => Except.ok l

/-- Claim C1, counterexample.  The claim asserts that on input `"{}"` the
object parse routine consumes the `'}'` and returns a completed empty
`Object` without raising any error; in fact `parse_object` pops the `'{'`
and immediately requires the remainder to classify as a node, so on `"{}"`
it raises the expected-node error (the bare-string raise at line 318). -/
theorem C1_counterexample :
    parseObject 100 ("\x7b\x7d".toList) = Except.error PyErr.expectedNode := rfl

/-- Claim C1, amended.  On input `"{}"` `parse_object` raises the
expected-node error, because after consuming `'{'` it immediately classifies
the remainder and `'}'` does not start a node.  The consume-`'}'`-and-return
path fires only when `'}'` is the peeked front character at the top of a loop
iteration: after a parsed node (`"{a: 1;}"` returns the one-node object), or
even with no preceding `'{'` at all (`"}"` alone returns an empty object). -/
theorem C1_amended_object_close :
    parseObject 100 ("\x7b\x7d".toList) = Except.error PyErr.expectedNode ∧
    parseObject 100 ("\x7d".toList) = Except.ok (PyVal.vobj [], []) ∧
    parseObject 100 ("\x7ba: 1;\x7d".toList) =
      Except.ok (PyVal.vobj [PyVal.vnode (PyVal.vstr "a") (PyVal.vint 1)], []) :=
  ⟨rfl, rfl, rfl⟩

/-- Claim C3.  The object `[BONNode("a", "v")]` contains a node whose key is
`"a"` (its only node, at position 0), yet `__delitem__` raises `KeyError`:
the scan leaves `index = 0` and `if not index:` treats 0 like `None`.  The
claim (delete succeeds whenever a matching key exists, including at position
0) is right about the intended container semantics and the code is wrong —
the source's own spec note flags this delete-by-key path as a defect. -/
theorem C3_delitem_position_zero_bug :
    objContains [BONNode.mk (PyVal.vstr "a") (PyVal.vstr "v")] (PyVal.vstr "a") = true ∧
    objDelitem [BONNode.mk (PyVal.vstr "a") (PyVal.vstr "v")] (PyVal.vstr "a") =
      Except.error PyErr.keyError ∧
    objDelitem [BONNode.mk (PyVal.vstr "x") (PyVal.vstr "u"),
                BONNode.mk (PyVal.vstr "a") (PyVal.vstr "v")] (PyVal.vstr "a") =
      Except.ok [BONNode.mk (PyVal.vstr "x") (PyVal.vstr "u")] :=
  ⟨rfl, rfl, rfl⟩

/-- Claim C7.  `{value: "x"}` (no trailing `;`) fails with the
missing-node-terminator error, and `{value: "x";` (no closing `}`) fails with
the missing-closing-brace error. -/
theorem C7_terminator_errors :
    bonParse 100 "\x7bvalue: \"x\"\x7d" = Except.error PyErr.missingNodeTerminator ∧
    bonParse 100 "\x7bvalue: \"x\";" = Except.error PyErr.missingClosingBrace :=
  ⟨rfl, rfl⟩

/-- Claim C8.  `determine_type` only reads the queue through the peeking
iterator, so for every queue state it returns its classification together
with the queue exactly as it was: nothing is consumed. -/
theorem C8_classifier_preserves_queue :
    ∀ q : List Char, determineTypeM q = (determineType q, q) := by
  intro q
  have h := dtGo_snd q (List.range q.length) false false
  unfold determineTypeM determineType determineTypeM
  exact Prod.ext rfl h

theorem C8_classifier_preserves_queue_witness :
    determineTypeM ("a: 1;".toList) = (determineType ("a: 1;".toList), "a: 1;".toList) :=
  C8_classifier_preserves_queue ("a: 1;".toList)

/-- Claim C9.  When the queue is exhausted before a `']'` closes the list,
`parse_list`'s loop falls through without a `return` and Python silently
returns `None`: no error is raised and no list is produced.  The first
conjunct states this for every fuel, accumulator and started-flag; the second
runs the unterminated input `"[1, 2"` end to end. -/
theorem C9_list_exhaustion_returns_none :
    (∀ (f : Nat) (acc : List PyVal) (st : Bool),
        run f (PMode.listLoop acc st) [] = Except.ok (PyVal.pynone, [])) ∧
    parseValue 100 ("[1, 2".toList) = Except.ok (PyVal.pynone, []) :=
  ⟨fun f _ _ => by cases f <;> rfl, rfl⟩

theorem C9_list_exhaustion_returns_none_witness :
    run 0 (PMode.listLoop [] false) [] = Except.ok (PyVal.pynone, []) :=
  C9_list_exhaustion_returns_none.1 0 [] false

/-- Claim C10.  `BONObject.__init__` copies `nodes` with a slice
unconditionally, so constructing without a nodes list (the declared default
`None`) always raises `TypeError` (`None[:]`), while construction from an
actual list succeeds and stores a copy. -/
theorem C10_init_none_type_error :
    objInit Option.none = Except.error PyErr.typeError ∧
    ∀ l : List BONNode, objInit (some l) = Except.ok l :=
  ⟨rfl, fun _ => rfl⟩

theorem C10_init_none_type_error_witness :
    objInit (some [BONNode.mk (PyVal.vstr "w") (PyVal.vint 7)]) =
      Except.ok [BONNode.mk (PyVal.vstr "w") (PyVal.vint 7)] :=
  C10_init_none_type_error.2 [BONNode.mk (PyVal.vstr "w") (PyVal.vint 7)]

/-- Claim C4, counterexample.  The claim asserts membership is testable by
key-or-value; but for the object `[BONNode("k", "v")]` the test with `"v"`
returns `False` even though its node's VALUE is `"v"` (second conjunct, via
`BONNode.__contains__`, which does test key-or-value — `BONObject.__contains__`
does not). -/
theorem C4_counterexample :
    objContains [BONNode.mk (PyVal.vstr "k") (PyVal.vstr "v")] (PyVal.vstr "v") = false ∧
    nodeContains (BONNode.mk (PyVal.vstr "k") (PyVal.vstr "v")) (PyVal.vstr "v") = true :=
  ⟨rfl, rfl⟩

/-- Claim C4, amended.  `BONObject.__contains__` returns `True` exactly when
some contained node has key equal to the item; node values are never
consulted (only `BONNode.__contains__` tests key-or-value). -/
theorem C4_contains_key_only :
    ∀ (nodes : List BONNode) (item : PyVal),
      objContains nodes item = true ↔ ∃ n, n ∈ nodes ∧ pyEq n.key item = true := by
  intro nodes item
  induction nodes with
  | nil => simp [objContains]
  | cons n rest ih =>
    constructor
    · intro hc
      rw [objContains] at hc
      by_cases h : pyEq n.key item = true
      · exact ⟨n, List.mem_cons_self n rest, h⟩
      · rcases ih.mp (by simpa [h] using hc) with ⟨m, hm, he⟩
        exact ⟨m, List.mem_cons_of_mem _ hm, he⟩
    · rintro ⟨m, hm, he⟩
      rw [objContains]
      rcases List.mem_cons.mp hm with rfl | hm'
      · simp [he]
      · by_cases h : pyEq n.key item = true
        · simp [h]
        · simpa [h] using ih.mpr ⟨m, hm', he⟩

theorem C4_contains_key_only_witness :
    objContains [BONNode.mk (PyVal.vstr "k") (PyVal.vstr "w")] (PyVal.vstr "k") = true ↔
      ∃ n, n ∈ [BONNode.mk (PyVal.vstr "k") (PyVal.vstr "w")] ∧
        pyEq n.key (PyVal.vstr "k") = true :=
  C4_contains_key_only [BONNode.mk (PyVal.vstr "k") (PyVal.vstr "w")] (PyVal.vstr "k")

/-- Once the opening quote has been consumed (`start_found` set, escape
clear), a run of ordinary characters — no quote of either style, no
backslash, no tab/newline — is appended to the buffer verbatim, and the
first quote character after the run closes the string, whichever of the two
quote styles it is. -/
theorem parseStringLoop_plain (q2 : Char) (rest : List Char)
    (hq2 : q2 = '"' ∨ q2 = squoteChar) :
    ∀ cs buf : List Char,
      (∀ c ∈ cs,
        ¬(c = '"' ∨ c = squoteChar ∨ c = backslashChar ∨ c = tabChar ∨ c = nlChar)) →
      parseStringLoop (cs ++ q2 :: rest) buf true false = Except.ok (buf ++ cs, rest) := by
  intro cs
  induction cs with
  | nil =>
    intro buf _
    rcases hq2 with rfl | rfl <;> simp [parseStringLoop]
  | cons c cs' ih =>
    intro buf h
    have hc := h c (List.mem_cons_self _ _)
    push_neg at hc
    obtain ⟨h1, h2, h3, h4, h5⟩ := hc
    have e1 : (c == '"') = false := by simp [h1]
    have e2 : (c == squoteChar) = false := by simp [h2]
    have e3 : (c == backslashChar) = false := by simp [h3]
    have e4 : (c == tabChar) = false := by simp [h4]
    have e5 : (c == nlChar) = false := by simp [h5]
    rw [List.cons_append, parseStringLoop]
    simp only [e1, e2, e3, e4, e5, Bool.true_and, Bool.not_false, Bool.and_false,
      Bool.false_and, Bool.and_true, Bool.or_self, Bool.false_or, Bool.or_false,
      Bool.not_true, if_false, if_true, Bool.true_or, Bool.and_self, ite_true,
      ite_false]
    have := ih (buf ++ [c]) (fun d hd => h d (List.mem_cons_of_mem _ hd))
    simpa [List.append_assoc] using this

/-- Claim C6.  String parsing terminates successfully at the first unescaped
quote after the opening quote, regardless of quote style (a string opened
with `"` may be closed by `'` and vice versa, first conjunct), and a
backslash-escaped quote is appended without terminating the string, so the
full input `value: "a\"b";` parses to a node whose value is the string
`a"b` (second conjunct). -/
theorem C6_string_termination :
    (∀ (q1 q2 : Char) (cs rest : List Char),
        (q1 = '"' ∨ q1 = squoteChar) → (q2 = '"' ∨ q2 = squoteChar) →
        (∀ c ∈ cs,
          ¬(c = '"' ∨ c = squoteChar ∨ c = backslashChar ∨ c = tabChar ∨ c = nlChar)) →
        parseString (q1 :: (cs ++ q2 :: rest)) = Except.ok (cs, rest)) ∧
    bonParse 100 "value: \"a\\\"b\";" =
      Except.ok (PyVal.vnode (PyVal.vstr "value") (PyVal.vstr "a\"b"), []) := by
  constructor
  · intro q1 q2 cs rest hq1 hq2 hcs
    unfold parseString
    rcases hq1 with rfl | rfl <;>
    · rw [parseStringLoop]
      simpa using parseStringLoop_plain q2 rest hq2 cs [] hcs
  · rfl

theorem C6_string_termination_witness :
    parseString ('"' :: (['a', 'b'] ++ squoteChar :: [])) = Except.ok (['a', 'b'], []) :=
  C6_string_termination.1 '"' squoteChar ['a', 'b'] [] (Or.inl rfl) (Or.inr rfl)
    (by decide)

/-- A character of `integer_digits` is none of the separator characters and
is also in `float_digits`. -/
theorem isIntDigit_spec {c : Char} (h : isIntDigit c = true) :
    ¬(c = ' ') ∧ ¬(c = '-') ∧ ¬(c = '+') ∧ isFloatDigit c = true := by
  simp only [isIntDigit, Bool.or_eq_true, beq_iff_eq] at h
  rcases h with ((((((((h | h) | h) | h) | h) | h) | h) | h) | h) | h <;> subst h <;>
    exact ⟨by decide, by decide, by decide, by decide⟩

/-- The consuming loop of `parse_number` takes the whole queue when every
character is in `float_digits` or a space. -/
theorem numberLoop_all :
    ∀ l : List Char, (∀ c ∈ l, (isFloatDigit c || c == ' ') = true) →
      numberLoop l = (l, []) := by
  intro l
  induction l with
  | nil => intro _; rfl
  | cons c rest ih =>
    intro h
    have hc := h c (List.mem_cons_self _ _)
    rw [numberLoop, ih (fun d hd => h d (List.mem_cons_of_mem _ hd))]
    simp [hc]

/-- Leading spaces produced by padding drop away. -/
theorem dropWhile_space_replicate (n : Nat) (l : List Char) :
    List.dropWhile (fun c => c == ' ') (List.replicate n ' ' ++ l) =
      List.dropWhile (fun c => c == ' ') l := by
  induction n with
  | zero => rfl
  | succ k ih =>
    rw [List.replicate_succ, List.cons_append, List.dropWhile_cons]
    simp [ih]

/-- `dropWhile` on a list whose head is not a space does nothing. -/
theorem dropWhile_space_of_head (d : Char) (t : List Char) (hd : ¬(d = ' ')) :
    List.dropWhile (fun c => c == ' ') (d :: t) = d :: t := by
  rw [List.dropWhile_cons]
  simp [hd]

/-- `dropWhile` on a space-free list does nothing. -/
theorem dropWhile_space_none (l : List Char) (h : ∀ c ∈ l, ¬(c = ' ')) :
    List.dropWhile (fun c => c == ' ') l = l := by
  cases l with
  | nil => rfl
  | cons x xs => exact dropWhile_space_of_head x xs (h x (List.mem_cons_self _ _))

/-- Stripping spaces from a digit run padded with spaces on both sides
recovers the digit run. -/
theorem stripSpaces_pad (a b : Nat) (ds : List Char) (h1 : ds ≠ [])
    (h2 : ∀ c ∈ ds, isIntDigit c = true) :
    stripSpaces (List.replicate a ' ' ++ (ds ++ List.replicate b ' ')) = ds := by
  obtain ⟨d, t, rfl⟩ : ∃ d t, ds = d :: t := by
    cases ds with
    | nil => exact absurd rfl h1
    | cons d t => exact ⟨d, t, rfl⟩
  have hd := (isIntDigit_spec (h2 d (List.mem_cons_self _ _))).1
  unfold stripSpaces stripChar
  rw [dropWhile_space_replicate, List.cons_append,
    dropWhile_space_of_head d (t ++ List.replicate b ' ') hd]
  have hrev : (d :: (t ++ List.replicate b ' ')).reverse
      = List.replicate b ' ' ++ (d :: t).reverse := by
    simp [List.reverse_cons, List.reverse_append, List.append_assoc]
  rw [hrev, dropWhile_space_replicate,
    dropWhile_space_none _ (fun c hc =>
      (isIntDigit_spec (h2 c (List.mem_reverse.mp hc))).1),
    List.reverse_reverse]

/-- Claim C2, counterexample.  The buffer `"1 2"` consists only of decimal
digits and spaces (first conjunct), yet `parse_number` does not return the
integer 12: `int("1 2")` raises `ValueError`, because Python's `int` strips
only surrounding whitespace and rejects interior spaces. -/
theorem C2_counterexample :
    ((numberLoop ("1 2".toList)).1.all (fun c => isIntDigit c || c == ' ') = true) ∧
    parseNumber ("1 2".toList) = Except.error PyErr.valueError :=
  ⟨rfl, rfl⟩

/-- Claim C2, amended.  `parse_number` succeeds on a buffer made of decimal
digits with only LEADING and/or TRAILING spaces, returning the base-10
integer of the digit run (spaces at the ends are ignored by `int()`); a space
between digits is not ignored and makes the conversion fail. -/
theorem C2_amended_int_spaces (a b : Nat) (ds : List Char) (h1 : ds ≠ [])
    (h2 : ∀ c ∈ ds, isIntDigit c = true) :
    parseNumber (List.replicate a ' ' ++ (ds ++ List.replicate b ' ')) =
      Except.ok (PyVal.vint (Int.ofNat (digitsToNat ds)), []) := by
  set q := List.replicate a ' ' ++ (ds ++ List.replicate b ' ') with hq
  have hmem : ∀ c ∈ q, c = ' ' ∨ isIntDigit c = true := by
    intro c hc
    rw [hq] at hc
    rcases List.mem_append.mp hc with h | h
    · exact Or.inl (List.eq_of_mem_replicate h)
    · rcases List.mem_append.mp h with h' | h'
      · exact Or.inr (h2 c h')
      · exact Or.inl (List.eq_of_mem_replicate h')
  have hloop : numberLoop q = (q, []) := by
    apply numberLoop_all
    intro c hc
    rcases hmem c hc with rfl | h
    · simp
    · simp [(isIntDigit_spec h).2.2.2]
  have hstrip : stripSpaces q = ds := stripSpaces_pad a b ds h1 h2
  have hall : q.all (fun c => isIntDigit c || c == ' ') = true := by
    rw [List.all_eq_true]
    intro c hc
    rcases hmem c hc with rfl | h
    · simp
    · simp [h]
  have hint : pyInt q = some (Int.ofNat (digitsToNat ds)) := by
    unfold pyInt
    rw [hstrip]
    obtain ⟨d, t, rfl⟩ : ∃ d t, ds = d :: t := by
      cases ds with
      | nil => exact absurd rfl h1
      | cons d t => exact ⟨d, t, rfl⟩
    obtain ⟨-, hdm, hdp, -⟩ := isIntDigit_spec (h2 d (List.mem_cons_self _ _))
    have ed1 : (d == '-') = false := by simp [hdm]
    have ed2 : (d == '+') = false := by simp [hdp]
    have hdig : pyIntDigits (d :: t) = some (digitsToNat (d :: t)) := by
      unfold pyIntDigits
      have hallds : (d :: t).all isIntDigit = true := List.all_eq_true.mpr h2
      simp [hallds]
    simp [ed1, ed2, hdig]
  have hbuf : bufferToNumber q = Except.ok (PyVal.vint (Int.ofNat (digitsToNat ds))) := by
    unfold bufferToNumber
    simp [hall, hint]
  unfold parseNumber
  rw [hloop]
  show (match bufferToNumber q with
    | Except.ok v => Except.ok (v, ([] : List Char))
    | Except.error e => Except.error e) = _
  rw [hbuf]

theorem C2_amended_int_spaces_witness :
    parseNumber (List.replicate 1 ' ' ++ (['1', '2'] ++ List.replicate 1 ' ')) =
      Except.ok (PyVal.vint (Int.ofNat (digitsToNat ['1', '2'])), []) :=
  C2_amended_int_spaces 1 1 ['1', '2'] (by decide) (by decide)

/-- `lastIdx` points at an occurrence. -/
theorem lastIdx_get (c : Char) :
    ∀ (l : List Char) (i : Nat), lastIdx c l = some i → l.get? i = some c := by
  intro l
  induction l with
  | nil => intro i h; exact Option.noConfusion h
  | cons a t ih =>
    intro i h
    rw [lastIdx] at h
    cases ht : lastIdx c t with
    | some j =>
      rw [ht] at h
      obtain rfl : j + 1 = i := Option.some.inj h
      simpa using ih j ht
    | none =>
      rw [ht] at h
      by_cases ha : (a == c) = true
      · rw [if_pos ha] at h
        obtain rfl : (0 : Nat) = i := Option.some.inj h
        simpa using beq_iff_eq.mp ha
      · rw [if_neg ha] at h
        exact Option.noConfusion h

/-- `lastIdx` returns `none` exactly when the character is absent. -/
theorem lastIdx_none (c : Char) :
    ∀ l : List Char, lastIdx c l = Option.none ↔ c ∉ l := by
  intro l
  induction l with
  | nil => simp [lastIdx]
  | cons a t ih =>
    rw [lastIdx]
    cases ht : lastIdx c t with
    | some j =>
      have hmem : c ∈ t := by
        by_contra hn
        rw [← ih] at hn
        rw [hn] at ht
        exact Option.noConfusion ht
      simp [hmem]
    | none =>
      have hnt : c ∉ t := (ih).mp ht
      by_cases ha : (a == c) = true
      · have : c = a := (beq_iff_eq.mp ha).symm
        simp [if_pos ha, this]
      · have hac : ¬(a = c) := fun hh => ha (beq_iff_eq.mpr hh)
        have hca : ¬(c = a) := fun hh => hac hh.symm
        simp [if_neg ha, hac, hca, hnt]

/-- In a list with at most one occurrence of `c`, two positions holding `c`
coincide. -/
theorem count_le_one_unique (c : Char) :
    ∀ l : List Char, l.count c ≤ 1 →
      ∀ i j, l.get? i = some c → l.get? j = some c → i = j := by
  intro l
  induction l with
  | nil => intro _ i j hi _; exact Option.noConfusion hi
  | cons a t ih =>
    intro hle i j hi hj
    have hcons : (a :: t).count c = t.count c + if a == c then 1 else 0 := by
      simp [List.count_cons]
    cases i with
    | zero =>
      cases j with
      | zero => rfl
      | succ j' =>
        exfalso
        have ha : a = c := Option.some.inj hi
        have hmem : c ∈ t := List.get?_mem (by simpa using hj)
        have h1 : 1 ≤ t.count c := List.count_pos_iff.mpr hmem
        rw [hcons, if_pos (beq_iff_eq.mpr ha)] at hle
        omega
    | succ i' =>
      cases j with
      | zero =>
        exfalso
        have ha : a = c := Option.some.inj hj
        have hmem : c ∈ t := List.get?_mem (by simpa using hi)
        have h1 : 1 ≤ t.count c := List.count_pos_iff.mpr hmem
        rw [hcons, if_pos (beq_iff_eq.mpr ha)] at hle
        omega
      | succ j' =>
        have hle' : t.count c ≤ 1 := by
          rw [hcons] at hle
          split at hle <;> omega
        have := ih hle' i' j' (by simpa using hi) (by simpa using hj)
        omega

/-- `float(data.strip('f'))` never produces the float-token error (its only
failure is `ValueError`). -/
theorem floatConv_ne_token (buf : List Char) :
    floatConv buf ≠ Except.error PyErr.invalidFloatToken := by
  unfold floatConv
  cases h : pyFloatPair (stripChar 'f' buf) with
  | some p => intro hcon; exact Except.noConfusion hcon
  | none =>
    intro hcon
    injection hcon with h'
    exact PyErr.noConfusion h'

/-- Classifying a buffer raises the float-token error exactly when the buffer
holds more than one `f`, or an `f` somewhere other than the last position. -/
theorem bufferToNumber_token_iff (buf : List Char) :
    bufferToNumber buf = Except.error PyErr.invalidFloatToken ↔
      (1 < buf.count 'f' ∨ ∃ i, buf.get? i = some 'f' ∧ i ≠ buf.length - 1) := by
  unfold bufferToNumber
  by_cases hall : buf.all (fun c => isIntDigit c || c == ' ') = true
  · rw [if_pos hall]
    have hf : 'f' ∉ buf := by
      intro hm
      exact absurd (List.all_eq_true.mp hall 'f' hm) (by decide)
    have hcount : buf.count 'f' = 0 := List.count_eq_zero.mpr hf
    constructor
    · intro h
      cases hp : pyInt buf with
      | some n => rw [hp] at h; exact Except.noConfusion h
      | none =>
        rw [hp] at h
        injection h with h'
        exact PyErr.noConfusion h'
    · rintro (h | ⟨i, hi, -⟩)
      · rw [hcount] at h; omega
      · exact absurd (List.get?_mem hi) hf
  · rw [if_neg hall]
    unfold parseFloatE
    by_cases hc : 1 < buf.count 'f'
    · rw [if_pos hc]
      exact ⟨fun _ => Or.inl hc, fun _ => rfl⟩
    · rw [if_neg hc]
      cases hl : lastIdx 'f' buf with
      | some i =>
        show (if i ≠ buf.length - 1 then Except.error PyErr.invalidFloatToken
          else floatConv buf) = Except.error PyErr.invalidFloatToken ↔ _
        by_cases hne : i ≠ buf.length - 1
        · rw [if_pos hne]
          exact ⟨fun _ => Or.inr ⟨i, lastIdx_get 'f' buf i hl, hne⟩, fun _ => rfl⟩
        · rw [if_neg hne]
          push_neg at hne
          constructor
          · intro h; exact absurd h (floatConv_ne_token buf)
          · rintro (h | ⟨j, hj, hjne⟩)
            · exact absurd h hc
            · exfalso
              have hle : buf.count 'f' ≤ 1 := by omega
              have heq : j = i :=
                count_le_one_unique 'f' buf hle j i hj (lastIdx_get 'f' buf i hl)
              rw [heq, hne] at hjne
              exact hjne rfl
      | none =>
        show floatConv buf = Except.error PyErr.invalidFloatToken ↔ _
        have hf : 'f' ∉ buf := (lastIdx_none 'f' buf).mp hl
        constructor
        · intro h; exact absurd h (floatConv_ne_token buf)
        · rintro (h | ⟨j, hj, -⟩)
          · exact absurd h hc
          · exact absurd (List.get?_mem hj) hf

/-- `parse_number` surfaces exactly the error its buffer classification
produces. -/
theorem parseNumber_token_iff (q : List Char) :
    parseNumber q = Except.error PyErr.invalidFloatToken ↔
      bufferToNumber (numberLoop q).1 = Except.error PyErr.invalidFloatToken := by
  unfold parseNumber
  cases h : bufferToNumber (numberLoop q).1 with
  | ok v => simp
  | error e => simp

/-- Claim C5.  Number parsing raises the float-token error exactly when the
accumulated buffer contains `'f'` more than once or at a position other than
its last character (first conjunct, over every queue); and on the concrete
inputs: `"4"` parses to integer 4; `"4f"` to the float of value 4; `"4.5"`
to the float of value 9/2; `"2e-5"` to the float of value 2/100000; `"4ff"`
and `"4f5"` both fail with the float-token error. -/
theorem C5_float_token_discipline :
    (∀ q : List Char,
      parseNumber q = Except.error PyErr.invalidFloatToken ↔
        (1 < (numberLoop q).1.count 'f' ∨
         ∃ i, (numberLoop q).1.get? i = some 'f' ∧ i ≠ (numberLoop q).1.length - 1)) ∧
    parseNumber ("4".toList) = Except.ok (PyVal.vint 4, []) ∧
    parseNumber ("4f".toList) = Except.ok (PyVal.vfloat 4 0, []) ∧
    floatVal 4 0 = 4 ∧
    parseNumber ("4.5".toList) = Except.ok (PyVal.vfloat 45 (-1), []) ∧
    floatVal 45 (-1) = 9 / 2 ∧
    parseNumber ("2e-5".toList) = Except.ok (PyVal.vfloat 2 (-5), []) ∧
    floatVal 2 (-5) = 2 / 100000 ∧
    parseNumber ("4ff".toList) = Except.error PyErr.invalidFloatToken ∧
    parseNumber ("4f5".toList) = Except.error PyErr.invalidFloatToken := by
  refine ⟨fun q => (parseNumber_token_iff q).trans (bufferToNumber_token_iff _),
    rfl, rfl, by norm_num [floatVal], rfl, by norm_num [floatVal], rfl,
    by norm_num [floatVal], rfl, rfl⟩

theorem C5_float_token_discipline_witness :
    parseNumber ("4f5".toList) = Except.error PyErr.invalidFloatToken ↔
      (1 < (numberLoop ("4f5".toList)).1.count 'f' ∨
       ∃ i, (numberLoop ("4f5".toList)).1.get? i = some 'f' ∧
         i ≠ (numberLoop ("4f5".toList)).1.length - 1) :=
  C5_float_token_discipline.1 ("4f5".toList)
